import Mathlib

/-!
Verification development for the visual-spreadsheet formula engine
(`visualcalc.py`).  The evaluation core is shallowly embedded:

* Python numbers (int and float are merged, since no claim distinguishes
  their renderings) are modelled exactly over `ℚ`, extended with the three
  non-finite floats `inf`, `-inf`, `nan`.  Float values that the exact
  rational model cannot track (irrational results of `math` calls,
  fractional powers, the constants `math.pi`/`math.e`) are collapsed into
  a single `unmodeled` marker; no theorem below depends on that marker.
* The expression strings are parsed by a tokenizer plus recursive-descent
  parser mirroring the precedence Python's `ast.parse` gives the operators
  the formulas use (comparisons below `^`, `^` below `+ -`, `+ -` below
  `* /`, unary minus below `**`, `**` right-associative).  Call argument
  lists are modelled up to arity three (the `IF` conditional and the
  `math` functions used by formulas); comparison chains of length one.
* `eval` with `{"__builtins__": {}, "math": math, "IF": IF}` globals and
  the dependency environment as locals is modelled by `evalExpr`.
* Error strings follow the source (`"Unknown variable: …"`,
  `"Circular dependency detected for element: …"`, and the
  `"Error evaluating formula: " ++ str(e)` wrapping); texts of Python
  exception messages that quote type names are reproduced without the
  quote characters.  Python iterates dependency sets in unspecified hash
  order; the embedding fixes first-occurrence order.
-/

set_option maxRecDepth 8000

unseal Rat.add Rat.mul Rat.sub Rat.inv Rat.ofScientific

namespace VC

/-- Numeric domain of the embedding: exact rationals plus the three
non-finite floats. -/
inductive ANum where
  | finite (q : ℚ)
  | pinf
  | ninf
  | nan
deriving DecidableEq, Repr

/-- Runtime values produced by the sandboxed `eval` of the source:
numbers, booleans, strings, `None`, the `math` module object, `math`
member functions, the `IF` helper function, and the marker for float
values outside the exact fragment. -/
inductive Val where
  | num (q : ℚ)
  | pinf
  | ninf
  | nan
  | bool (b : Bool)
  | str (s : String)
  | pynone
  | mathMod
  | mathFn (f : String)
  | ifFn
  | unmodeled
deriving DecidableEq, Repr

def negA : ANum → ANum
  | .finite q => .finite (-q)
  | .pinf => .ninf
  | .ninf => .pinf
  | .nan => .nan

def addA : ANum → ANum → ANum
  | .nan, _ => .nan
  | .finite a, .finite b => .finite (a + b)
  | .finite _, .pinf => .pinf
  | .finite _, .ninf => .ninf
  | .finite _, .nan => .nan
  | .pinf, .finite _ => .pinf
  | .ninf, .finite _ => .ninf
  | .pinf, .pinf => .pinf
  | .ninf, .ninf => .ninf
  | .pinf, .ninf => .nan
  | .ninf, .pinf => .nan
  | .pinf, .nan => .nan
  | .ninf, .nan => .nan

def mulA : ANum → ANum → ANum
  | .nan, _ => .nan
  | .finite a, .finite b => .finite (a * b)
  | .finite a, .pinf => if 0 < a then .pinf else if a < 0 then .ninf else .nan
  | .finite a, .ninf => if 0 < a then .ninf else if a < 0 then .pinf else .nan
  | .finite _, .nan => .nan
  | .pinf, .finite b => if 0 < b then .pinf else if b < 0 then .ninf else .nan
  | .ninf, .finite b => if 0 < b then .ninf else if b < 0 then .pinf else .nan
  | .pinf, .pinf => .pinf
  | .ninf, .ninf => .pinf
  | .pinf, .ninf => .ninf
  | .ninf, .pinf => .ninf
  | .pinf, .nan => .nan
  | .ninf, .nan => .nan

/-- Division.  Python raises `ZeroDivisionError` whenever the divisor is
exactly zero (for floats as well), which the source surfaces as an
evaluation error — division never produces an IEEE infinity here. -/
def divA (x y : ANum) : Except String ANum :=
  match y with
  | .finite b =>
    if b = 0 then .error "division by zero"
    else
      match x with
      | .finite a => .ok (.finite (a / b))
      | .pinf => .ok (if 0 < b then .pinf else .ninf)
      | .ninf => .ok (if 0 < b then .ninf else .pinf)
      | .nan => .ok .nan
  | .pinf =>
    match x with
    | .finite _ => .ok (.finite 0)
    | _ => .ok .nan
  | .ninf =>
    match x with
    | .finite _ => .ok (.finite 0)
    | _ => .ok .nan
  | .nan => .ok .nan

/-- Exponentiation `base ** exponent`.  Integer exponents on finite bases
are tracked exactly; a fractional exponent leaves the exact fragment
(Python would produce an irrational float or a complex number) and yields
the `unmodeled` marker. -/
def powA (x y : ANum) : Except String Val :=
  match x, y with
  | .finite a, .finite b =>
    if b.den = 1 then
      if 0 ≤ b.num then .ok (.num (a ^ b.num.toNat))
      else if a = 0 then .error "0.0 cannot be raised to a negative power"
      else .ok (.num ((a ^ (-b.num).toNat)⁻¹))
    else .ok .unmodeled
  | .finite a, .pinf => .ok (if a = 1 ∨ a = -1 then .num 1 else if 1 < |a| then .pinf else .num 0)
  | .finite a, .ninf => .ok (if a = 1 ∨ a = -1 then .num 1 else if 1 < |a| then .num 0 else .pinf)
  | .finite a, .nan => .ok (if a = 1 then .num 1 else .nan)
  | .pinf, .finite b => .ok (if 0 < b then .pinf else if b = 0 then .num 1 else .num 0)
  | .ninf, .finite b =>
    .ok (if 0 < b then (if b.den = 1 ∧ b.num % 2 = 1 then .ninf else .pinf)
         else if b = 0 then .num 1 else .num 0)
  | .pinf, .pinf => .ok .pinf
  | .pinf, .ninf => .ok (.num 0)
  | .ninf, .pinf => .ok .pinf
  | .ninf, .ninf => .ok (.num 0)
  | .nan, .finite b => .ok (if b = 0 then .num 1 else .nan)
  | .nan, _ => .ok .nan
  | _, .nan => .ok .nan

/-- `isinstance(x, (int, float))`-style numeric view: numbers, the
non-finite floats and booleans (`bool` is a subclass of `int` in Python)
all coerce to an `ANum`. -/
def toANum? : Val → Option ANum
  | .num q => some (.finite q)
  | .pinf => some .pinf
  | .ninf => some .ninf
  | .nan => some .nan
  | .bool b => some (.finite (if b then 1 else 0))
  | _ => none

def aVal : ANum → Val
  | .finite q => .num q
  | .pinf => .pinf
  | .ninf => .ninf
  | .nan => .nan

inductive BOp where
  | add
  | sub
  | mul
  | div
  | bitxor
  | pow
deriving DecidableEq, Repr

inductive UOp where
  | neg
  | pos
deriving DecidableEq, Repr

inductive COp where
  | lt
  | le
  | gt
  | ge
  | eq
  | ne
deriving DecidableEq, Repr

/-- Binary operator semantics on runtime values.  The `bitxor` case is
unreachable at run time because the `XorToPow` transformer rewrites every
`BitXor` node to `Pow` before evaluation. -/
def applyB (op : BOp) (x y : Val) : Except String Val :=
  match toANum? x, toANum? y with
  | some a, some b =>
    match op with
    | .add => .ok (aVal (addA a b))
    | .sub => .ok (aVal (addA a (negA b)))
    | .mul => .ok (aVal (mulA a b))
    | .div => (divA a b).map aVal
    | .pow => powA a b
    | .bitxor => .error "unsupported operand type(s) for ^"
  | _, _ =>
    match op, x, y with
    | .add, .str s, .str t => .ok (.str (s ++ t))
    | _, .unmodeled, _ => .ok .unmodeled
    | _, _, .unmodeled => .ok .unmodeled
    | .mul, .str _, _ => .ok .unmodeled
    | .mul, _, .str _ => .ok .unmodeled
    | _, _, _ => .error "unsupported operand type(s)"

def applyU (op : UOp) (x : Val) : Except String Val :=
  match toANum? x with
  | some a =>
    match op with
    | .neg => .ok (aVal (negA a))
    | .pos => .ok (aVal a)
  | none =>
    match x with
    | .unmodeled => .ok .unmodeled
    | _ => .error "bad operand type for unary operator"

/-- Strict order on extended numbers; any comparison involving `nan` is
false. -/
def aLt : ANum → ANum → Bool
  | .nan, _ => false
  | _, .nan => false
  | .finite a, .finite b => decide (a < b)
  | .finite _, .pinf => true
  | .finite _, .ninf => false
  | .pinf, _ => false
  | .ninf, .ninf => false
  | .ninf, _ => true

/-- Equality on extended numbers; `nan` is not equal to anything,
including itself. -/
def aEq : ANum → ANum → Bool
  | .finite a, .finite b => decide (a = b)
  | .pinf, .pinf => true
  | .ninf, .ninf => true
  | _, _ => false

/-- Comparison operator semantics.  Cross-type `==`/`!=` is
`False`/`True` as in Python; cross-type ordering raises `TypeError`. -/
def applyC (op : COp) (x y : Val) : Except String Val :=
  match toANum? x, toANum? y with
  | some a, some b =>
    .ok (.bool (match op with
      | .lt => aLt a b
      | .le => aLt a b || aEq a b
      | .gt => aLt b a
      | .ge => aLt b a || aEq a b
      | .eq => aEq a b
      | .ne => !aEq a b))
  | _, _ =>
    match x, y with
    | .str s, .str t =>
      .ok (.bool (match op with
        | .lt => decide (s < t)
        | .le => decide (s < t) || decide (s = t)
        | .gt => decide (t < s)
        | .ge => decide (t < s) || decide (s = t)
        | .eq => decide (s = t)
        | .ne => !decide (s = t)))
    | _, _ =>
      match op with
      | .eq => .ok (.bool false)
      | .ne => .ok (.bool true)
      | _ => .error "ordering not supported between these operand types"

/-- Python truthiness of the modelled values. -/
def truthy : Val → Except String Bool
  | .num q => .ok (decide (q ≠ 0))
  | .pinf => .ok true
  | .ninf => .ok true
  | .nan => .ok true
  | .bool b => .ok b
  | .str s => .ok (!decide (s = ""))
  | .pynone => .ok false
  | .mathMod => .ok true
  | .mathFn _ => .ok true
  | .ifFn => .ok true
  | .unmodeled => .error "truth value of unmodelled float is not tracked"

/-- IF helper function (source lines 35-36): ternary choice on a truthy
condition; both branches are already evaluated when it is called. -/
def IF (condition val_if_true val_if_false : Val) : Except String Val := do
  let t ← truthy condition
  .ok (if t then val_if_true else val_if_false)

def isqrtAux (n : ℕ) : ℕ → ℕ → ℕ
  | 0, r => r
  | fuel + 1, r => if (r + 1) * (r + 1) ≤ n then isqrtAux n fuel (r + 1) else r

/-- Structural integer square root (only exercised on small perfect
squares in this development). -/
def isqrt (n : ℕ) : ℕ := isqrtAux n n 0

/-- Exact rational square root, when it exists. -/
def ratSqrt? (q : ℚ) : Option ℚ :=
  let n := isqrt q.num.toNat
  let d := isqrt q.den
  if ((n * n : ℤ) = q.num ∧ d * d = q.den) then some ((n : ℚ) / (d : ℚ))
  else none

/-- Allow-listed `math` members that the exact model evaluates; every
other member call yields the `unmodeled` marker. -/
def applyMath (f : String) (args : List Val) : Except String Val :=
  if f = "sqrt" then
    match args with
    | [v] =>
      match toANum? v with
      | some (.finite q) =>
        if q < 0 then .error "math domain error"
        else
          match ratSqrt? q with
          | some r => .ok (.num r)
          | none => .ok .unmodeled
      | some .pinf => .ok .pinf
      | some .ninf => .error "math domain error"
      | some .nan => .ok .nan
      | none => .error "must be real number"
    | _ => .error "sqrt expected exactly one argument"
  else if f = "floor" then
    match args with
    | [v] =>
      match toANum? v with
      | some (.finite q) => .ok (.num (q.floor : ℚ))
      | some .nan => .error "cannot convert float NaN to integer"
      | some _ => .error "cannot convert float infinity to integer"
      | none => .error "must be real number"
    | _ => .error "floor expected exactly one argument"
  else if f = "ceil" then
    match args with
    | [v] =>
      match toANum? v with
      | some (.finite q) => .ok (.num (q.ceil : ℚ))
      | some .nan => .error "cannot convert float NaN to integer"
      | some _ => .error "cannot convert float infinity to integer"
      | none => .error "must be real number"
    | _ => .error "ceil expected exactly one argument"
  else if f = "fabs" then
    match args with
    | [v] =>
      match toANum? v with
      | some (.finite q) => .ok (.num |q|)
      | some .nan => .ok .nan
      | some _ => .ok .pinf
      | none => .error "must be real number"
    | _ => .error "fabs expected exactly one argument"
  else if f = "pow" then
    match args with
    | [a, b] =>
      match toANum? a, toANum? b with
      | some x, some y => powA x y
      | _, _ => .error "must be real number"
    | _ => .error "pow expected exactly two arguments"
  else .ok .unmodeled

/-- Attribute lookup on the `math` module: `math.inf`/`math.nan` are the
non-finite floats; the irrational constants leave the exact fragment;
anything else is treated as a member function. -/
def mathAttr (a : String) : Val :=
  if a = "inf" then .pinf
  else if a = "nan" then .nan
  else if a = "pi" ∨ a = "e" ∨ a = "tau" then .unmodeled
  else .mathFn a

/-- Calling a runtime value on evaluated arguments. -/
def applyCall (fv : Val) (args : List Val) : Except String Val :=
  match fv with
  | .ifFn =>
    match args with
    | [c, a, b] => IF c a b
    | _ => .error "IF() takes exactly 3 arguments"
  | .mathFn f => applyMath f args
  | .mathMod => .error "module object is not callable"
  | .num _ => .error "float object is not callable"
  | .bool _ => .error "bool object is not callable"
  | .str _ => .error "str object is not callable"
  | _ => .error "object is not callable"

/-- Abstract syntax of the expression fragment that `ast.parse(expr,
mode=eval)` yields on the formulas the engine handles.  Calls carry at
most three arguments (`IF` and the `math` members used in formulas);
comparison chains are modelled at length one. -/
inductive Expr where
  | num (q : ℚ)
  | name (n : String)
  | boolLit (b : Bool)
  | noneLit
  | strLit (s : String)
  | unary (op : UOp) (a : Expr)
  | binop (op : BOp) (a b : Expr)
  | cmp (op : COp) (a b : Expr)
  | attr (a : Expr) (fld : String)
  | call0 (f : Expr)
  | call1 (f : Expr) (a : Expr)
  | call2 (f : Expr) (a b : Expr)
  | call3 (f : Expr) (a b c : Expr)
deriving DecidableEq, Repr

abbrev Env := List (String × Val)

def lookupC (n : String) : List (String × Val) → Option Val
  | [] => none
  | (k, v) :: t => if k = n then some v else lookupC n t

/-- The sandboxed `eval` of source line 90: locals are the dependency
environment, globals are `{"__builtins__": {}, "math": math, "IF": IF}`,
so a free name outside the environment resolves to the `math` module or
the `IF` function and nothing else. -/
def evalExpr (env : Env) : Expr → Except String Val
  | .num q => .ok (.num q)
  | .name n =>
    match lookupC n env with
    | some v => .ok v
    | none =>
      if n = "math" then .ok .mathMod
      else if n = "IF" then .ok .ifFn
      else .error ("name " ++ n ++ " is not defined")
  | .boolLit b => .ok (.bool b)
  | .noneLit => .ok .pynone
  | .strLit s => .ok (.str s)
  | .unary op a => do applyU op (← evalExpr env a)
  | .binop op a b => do
    let va ← evalExpr env a
    let vb ← evalExpr env b
    applyB op va vb
  | .cmp op a b => do
    let va ← evalExpr env a
    let vb ← evalExpr env b
    applyC op va vb
  | .attr a fld => do
    let v ← evalExpr env a
    match v with
    | .mathMod => .ok (mathAttr fld)
    | _ => .ok .unmodeled
  | .call0 f => do applyCall (← evalExpr env f) []
  | .call1 f a => do
    let fv ← evalExpr env f
    let va ← evalExpr env a
    applyCall fv [va]
  | .call2 f a b => do
    let fv ← evalExpr env f
    let va ← evalExpr env a
    let vb ← evalExpr env b
    applyCall fv [va, vb]
  | .call3 f a b c => do
    let fv ← evalExpr env f
    let va ← evalExpr env a
    let vb ← evalExpr env b
    let vc ← evalExpr env c
    applyCall fv [va, vb, vc]

/-- AST transformer modelling class `XorToPow` (source lines 41-46):
every `BitXor` node becomes `Pow`, children first, tree shape kept. -/
def xorToPow : Expr → Expr
  | .binop .bitxor a b => .binop .pow (xorToPow a) (xorToPow b)
  | .binop op a b => .binop op (xorToPow a) (xorToPow b)
  | .unary op a => .unary op (xorToPow a)
  | .cmp op a b => .cmp op (xorToPow a) (xorToPow b)
  | .attr a fld => .attr (xorToPow a) fld
  | .call0 f => .call0 (xorToPow f)
  | .call1 f a => .call1 (xorToPow f) (xorToPow a)
  | .call2 f a b => .call2 (xorToPow f) (xorToPow a) (xorToPow b)
  | .call3 f a b c => .call3 (xorToPow f) (xorToPow a) (xorToPow b) (xorToPow c)
  | e => e

/-- All `ast.Name` identifiers of an expression, in syntactic order. -/
def namesOf : Expr → List String
  | .name n => [n]
  | .unary _ a => namesOf a
  | .binop _ a b => namesOf a ++ namesOf b
  | .cmp _ a b => namesOf a ++ namesOf b
  | .attr a _ => namesOf a
  | .call0 f => namesOf f
  | .call1 f a => namesOf f ++ namesOf a
  | .call2 f a b => namesOf f ++ namesOf a ++ namesOf b
  | .call3 f a b c => namesOf f ++ namesOf a ++ namesOf b ++ namesOf c
  | _ => []

def dedupAux : List String → List String → List String
  | _, [] => []
  | seen, a :: t => if a ∈ seen then dedupAux seen t else a :: dedupAux (a :: seen) t

def dedup (l : List String) : List String := dedupAux [] l

inductive Tok where
  | num (q : ℚ)
  | name (s : String)
  | strTok (s : String)
  | sym (s : String)
deriving DecidableEq, Repr

def isIdentStart (c : Char) : Bool := c.isAlpha || c = '_'

def isIdentChar (c : Char) : Bool := c.isAlphanum || c = '_'

def takeWhileL (p : Char → Bool) : List Char → List Char × List Char
  | [] => ([], [])
  | c :: cs => if p c then ((takeWhileL p cs).1.cons c, (takeWhileL p cs).2) else ([], c :: cs)

def digitsToNat (ds : List Char) : ℕ :=
  ds.foldl (fun acc c => 10 * acc + (c.toNat - '0'.toNat)) 0

def fracVal (ds : List Char) : ℚ :=
  (digitsToNat ds : ℚ) / (10 : ℚ) ^ ds.length

/-- Tokenizer for the expression fragment. -/
def tokenize : ℕ → List Char → Option (List Tok)
  | 0, _ => none
  | _, [] => some []
  | fuel + 1, c :: cs =>
    if c = ' ' ∨ c = '\t' then tokenize fuel cs
    else if c.isDigit then
      let p := takeWhileL Char.isDigit (c :: cs)
      match p.2 with
      | '.' :: rest2 =>
        let p2 := takeWhileL Char.isDigit rest2
        do
          let ts ← tokenize fuel p2.2
          some (Tok.num ((digitsToNat p.1 : ℚ) + fracVal p2.1) :: ts)
      | _ => do
        let ts ← tokenize fuel p.2
        some (Tok.num (digitsToNat p.1 : ℚ) :: ts)
    else if isIdentStart c then
      let p := takeWhileL isIdentChar (c :: cs)
      do
        let ts ← tokenize fuel p.2
        some (Tok.name (String.mk p.1) :: ts)
    else if c = '"' then
      let p := takeWhileL (fun ch => !(ch = '"')) cs
      match p.2 with
      | '"' :: rest2 => do
        let ts ← tokenize fuel rest2
        some (Tok.strTok (String.mk p.1) :: ts)
      | _ => none
    else
      match c :: cs with
      | '*' :: '*' :: r => do some (Tok.sym "**" :: (← tokenize fuel r))
      | '<' :: '=' :: r => do some (Tok.sym "<=" :: (← tokenize fuel r))
      | '>' :: '=' :: r => do some (Tok.sym ">=" :: (← tokenize fuel r))
      | '=' :: '=' :: r => do some (Tok.sym "==" :: (← tokenize fuel r))
      | '!' :: '=' :: r => do some (Tok.sym "!=" :: (← tokenize fuel r))
      | _ =>
        if c = '+' ∨ c = '-' ∨ c = '*' ∨ c = '/' ∨ c = '^' ∨ c = '(' ∨ c = ')' ∨
            c = ',' ∨ c = '.' ∨ c = '<' ∨ c = '>' then
          do some (Tok.sym (String.mk [c]) :: (← tokenize fuel cs))
        else none

def cmpSym? : Tok → Option COp
  | .sym "<" => some .lt
  | .sym "<=" => some .le
  | .sym ">" => some .gt
  | .sym ">=" => some .ge
  | .sym "==" => some .eq
  | .sym "!=" => some .ne
  | _ => none

mutual

/-- Comparison level (lowest precedence of the fragment). -/
def parseCmpL : ℕ → List Tok → Option (Expr × List Tok)
  | 0, _ => none
  | fuel + 1, ts => do
    let p ← parseXorL fuel ts
    match p.2 with
    | t :: r2 =>
      match cmpSym? t with
      | some op => do
        let p2 ← parseXorL fuel r2
        match p2.2 with
        | t2 :: _ =>
          match cmpSym? t2 with
          | some _ => none
          | none => some (Expr.cmp op p.1 p2.1, p2.2)
        | [] => some (Expr.cmp op p.1 p2.1, p2.2)
      | none => some p
    | [] => some p

/-- BitXor level: in Python `^` binds below `+`/`-`. -/
def parseXorL : ℕ → List Tok → Option (Expr × List Tok)
  | 0, _ => none
  | fuel + 1, ts => do
    let p ← parseAddL fuel ts
    parseXorRest fuel p.1 p.2

def parseXorRest : ℕ → Expr → List Tok → Option (Expr × List Tok)
  | 0, _, _ => none
  | fuel + 1, a, ts =>
    match ts with
    | Tok.sym "^" :: r => do
      let p ← parseAddL fuel r
      parseXorRest fuel (Expr.binop .bitxor a p.1) p.2
    | _ => some (a, ts)

def parseAddL : ℕ → List Tok → Option (Expr × List Tok)
  | 0, _ => none
  | fuel + 1, ts => do
    let p ← parseMulL fuel ts
    parseAddRest fuel p.1 p.2

def parseAddRest : ℕ → Expr → List Tok → Option (Expr × List Tok)
  | 0, _, _ => none
  | fuel + 1, a, ts =>
    match ts with
    | Tok.sym "+" :: r => do
      let p ← parseMulL fuel r
      parseAddRest fuel (Expr.binop .add a p.1) p.2
    | Tok.sym "-" :: r => do
      let p ← parseMulL fuel r
      parseAddRest fuel (Expr.binop .sub a p.1) p.2
    | _ => some (a, ts)

def parseMulL : ℕ → List Tok → Option (Expr × List Tok)
  | 0, _ => none
  | fuel + 1, ts => do
    let p ← parseUnaryL fuel ts
    parseMulRest fuel p.1 p.2

def parseMulRest : ℕ → Expr → List Tok → Option (Expr × List Tok)
  | 0, _, _ => none
  | fuel + 1, a, ts =>
    match ts with
    | Tok.sym "*" :: r => do
      let p ← parseUnaryL fuel r
      parseMulRest fuel (Expr.binop .mul a p.1) p.2
    | Tok.sym "/" :: r => do
      let p ← parseUnaryL fuel r
      parseMulRest fuel (Expr.binop .div a p.1) p.2
    | _ => some (a, ts)

def parseUnaryL : ℕ → List Tok → Option (Expr × List Tok)
  | 0, _ => none
  | fuel + 1, ts =>
    match ts with
    | Tok.sym "-" :: r => do
      let p ← parseUnaryL fuel r
      some (Expr.unary .neg p.1, p.2)
    | Tok.sym "+" :: r => do
      let p ← parseUnaryL fuel r
      some (Expr.unary .pos p.1, p.2)
    | _ => parsePowL fuel ts

/-- Power level: `**` is right-associative, and its right operand may
start with a unary sign, as in Python. -/
def parsePowL : ℕ → List Tok → Option (Expr × List Tok)
  | 0, _ => none
  | fuel + 1, ts => do
    let p ← parseTrailStart fuel ts
    match p.2 with
    | Tok.sym "**" :: r2 => do
      let p2 ← parseUnaryL fuel r2
      some (Expr.binop .pow p.1 p2.1, p2.2)
    | _ => some p

def parseTrailStart : ℕ → List Tok → Option (Expr × List Tok)
  | 0, _ => none
  | fuel + 1, ts => do
    let p ← parseAtomL fuel ts
    parseTrailL fuel p.1 p.2

/-- Attribute and call trailers. -/
def parseTrailL : ℕ → Expr → List Tok → Option (Expr × List Tok)
  | 0, _, _ => none
  | fuel + 1, a, ts =>
    match ts with
    | Tok.sym "." :: Tok.name f :: r => parseTrailL fuel (Expr.attr a f) r
    | Tok.sym "(" :: Tok.sym ")" :: r => parseTrailL fuel (Expr.call0 a) r
    | Tok.sym "(" :: r => do
      let p ← parseArgsL fuel r
      match p.2 with
      | Tok.sym ")" :: r3 =>
        match p.1 with
        | [x] => parseTrailL fuel (Expr.call1 a x) r3
        | [x, y] => parseTrailL fuel (Expr.call2 a x y) r3
        | [x, y, z] => parseTrailL fuel (Expr.call3 a x y z) r3
        | _ => none
      | _ => none
    | _ => some (a, ts)

def parseArgsL : ℕ → List Tok → Option (List Expr × List Tok)
  | 0, _ => none
  | fuel + 1, ts => do
    let p ← parseCmpL fuel ts
    match p.2 with
    | Tok.sym "," :: r2 => do
      let p2 ← parseArgsL fuel r2
      some (p.1 :: p2.1, p2.2)
    | _ => some ([p.1], p.2)

def parseAtomL : ℕ → List Tok → Option (Expr × List Tok)
  | 0, _ => none
  | fuel + 1, ts =>
    match ts with
    | Tok.num q :: r => some (Expr.num q, r)
    | Tok.name "True" :: r => some (Expr.boolLit true, r)
    | Tok.name "False" :: r => some (Expr.boolLit false, r)
    | Tok.name "None" :: r => some (Expr.noneLit, r)
    | Tok.name n :: r => some (Expr.name n, r)
    | Tok.strTok s :: r => some (Expr.strLit s, r)
    | Tok.sym "(" :: r => do
      let p ← parseCmpL fuel r
      match p.2 with
      | Tok.sym ")" :: r3 => some (p.1, r3)
      | _ => none
    | _ => none

end

/-- Model of `ast.parse(content, mode=eval)` on the fragment. -/
def parseExpr? (content : String) : Option Expr := do
  let ts ← tokenize (content.length + 1) content.toList
  let p ← parseCmpL (16 * ts.length + 64) ts
  match p.2 with
  | [] => some p.1
  | _ => none

/-- Source `get_dependencies` (lines 51-56): on parse failure the empty
set, otherwise every `ast.Name` id of the tree.  The reserved names
`math` and `IF` are NOT removed here — the callers filter them.  Python
returns a set whose iteration order is unspecified; the embedding fixes
deduplicated first-occurrence order. -/
def get_dependencies (expr : String) : List String :=
  match parseExpr? expr with
  | none => []
  | some t => dedup (namesOf t)

def isSpaceC (c : Char) : Bool := c = ' ' ∨ c = '\t' ∨ c = '\n' ∨ c = '\r'

def stripC (cs : List Char) : List Char :=
  ((cs.dropWhile isSpaceC).reverse.dropWhile isSpaceC).reverse

def lowerEq (cs : List Char) (s : String) : Bool :=
  decide (cs.map Char.toLower = s.toList)

def expDigits (m : ℚ) (neg : Bool) (cs : List Char) : Option ℚ :=
  let p := takeWhileL Char.isDigit cs
  if p.1.isEmpty ∨ !p.2.isEmpty then none
  else some (if neg then m / (10 : ℚ) ^ digitsToNat p.1 else m * (10 : ℚ) ^ digitsToNat p.1)

def parseExpPart (m : ℚ) : List Char → Option ℚ
  | [] => some m
  | c :: r =>
    if c = 'e' ∨ c = 'E' then
      match r with
      | '+' :: r2 => expDigits m false r2
      | '-' :: r2 => expDigits m true r2
      | _ => expDigits m false r
    else none

def parseDecE (cs : List Char) : Option ℚ :=
  let p := takeWhileL Char.isDigit cs
  match p.2 with
  | '.' :: r2 =>
    let p2 := takeWhileL Char.isDigit r2
    if p.1.isEmpty ∧ p2.1.isEmpty then none
    else parseExpPart ((digitsToNat p.1 : ℚ) + fracVal p2.1) p2.2
  | _ =>
    if p.1.isEmpty then none
    else parseExpPart (digitsToNat p.1 : ℚ) p.2

/-- Model of `float(content)` (source line 68): leading/trailing
whitespace stripped, optional sign, then either a case-insensitive
`inf`/`infinity`/`nan` or a decimal literal with optional exponent. -/
def pyFloat? (s : String) : Option Val :=
  match stripC s.toList with
  | [] => none
  | cs =>
    let sp : Bool × List Char :=
      match cs with
      | '+' :: r => (false, r)
      | '-' :: r => (true, r)
      | _ => (false, cs)
    if lowerEq sp.2 "inf" ∨ lowerEq sp.2 "infinity" then
      some (if sp.1 then Val.ninf else Val.pinf)
    else if lowerEq sp.2 "nan" then some Val.nan
    else (parseDecE sp.2).map (fun q => Val.num (if sp.1 then -q else q))

/-- Formula branch of `evaluate_element` (source lines 81-92): parse,
rewrite `^` to `**`, evaluate, and wrap any failure as
`"Error evaluating formula: " ++ str(e)`. -/
def evalFormula (content : String) (env : Env) : Except String Val :=
  match parseExpr? content with
  | none => .error "Error evaluating formula: invalid syntax"
  | some t =>
    match evalExpr env (xorToPow t) with
    | .ok v => .ok v
    | .error m => .error ("Error evaluating formula: " ++ m)

/-- The spec 4.2 contract `evaluate(content, env)` as the source realizes
it (lines 66-92): numeric-literal fast path first, formula path
otherwise. -/
def evalContent (content : String) (env : Env) : Except String Val :=
  match pyFloat? content with
  | some v => .ok v
  | none => evalFormula content env

/-- An element (cell): the evaluation engine reads `name`/`content` and
writes `raw_result`/`result`; `raw_result = none` is the no-value
marker. -/
structure Element where
  name : String
  content : String
  raw_result : Option Val := none
  result : String := ""
deriving DecidableEq, Repr

abbrev Cache := List (String × Val)

def dictLookup (n : String) : List Element → Option Element
  | [] => none
  | e :: t => if e.name = n then some e else dictLookup n t

/-- The dependency loop of `evaluate_element` (source lines 71-79):
reserved names skipped, absent names raise `Unknown variable`, present
names resolved through the supplied recursive evaluator, threading the
memoization cache. -/
def resolveDeps (f : Cache → Element → Cache × Except String Val) (dict : List Element) :
    Cache → List String → Cache × Except String Env
  | c, [] => (c, .ok [])
  | c, d :: ds =>
    if d = "math" ∨ d = "IF" then resolveDeps f dict c ds
    else
      match dictLookup d dict with
      | none => (c, .error ("Unknown variable: " ++ d))
      | some el =>
        match f c el with
        | (c2, .error m) => (c2, .error m)
        | (c2, .ok v) =>
          match resolveDeps f dict c2 ds with
          | (c3, .error m) => (c3, .error m)
          | (c3, .ok env) => (c3, .ok ((d, v) :: env))

/-- Source `evaluate_element` (lines 58-96).  The fuel argument bounds the
recursion depth; the in-progress `stack` grows by one distinct dict name
per level, so `dict.length + 1` fuel is never exhausted in the calls the
engine makes.  The cache is threaded through and survives a failure, as
the mutable Python dict does. -/
def evaluate_element : ℕ → List Element → Cache → List String → Element →
    Cache × Except String Val
  | 0, _, c, _, _ => (c, .error "recursion limit exceeded")
  | fuel + 1, dict, c, stack, el =>
    match lookupC el.name c with
    | some v => (c, .ok v)
    | none =>
      if el.name ∈ stack then
        (c, .error ("Circular dependency detected for element: " ++ el.name))
      else
        match pyFloat? el.content with
        | some v => ((el.name, v) :: c, .ok v)
        | none =>
          match resolveDeps (fun c2 e => evaluate_element fuel dict c2 (el.name :: stack) e)
              dict c (get_dependencies el.content) with
          | (c2, .error m) => (c2, .error m)
          | (c2, .ok env) =>
            match evalFormula el.content env with
            | .ok v => ((el.name, v) :: c2, .ok v)
            | .error m => (c2, .error m)

/-- Default string rendering `str(value)` used by the display.  The
shortest-round-trip repr of a non-integral float is not modelled
digit-for-digit (no claim depends on it); integral floats render as
Python floats do. -/
def pyStrV : Val → String
  | .num q => if q.den = 1 then toString q.num ++ ".0" else toString q.num ++ "/" ++ toString q.den
  | .pinf => "inf"
  | .ninf => "-inf"
  | .nan => "nan"
  | .bool b => if b then "True" else "False"
  | .str s => s
  | .pynone => "None"
  | .mathMod => "<module math>"
  | .mathFn f => "<built-in function " ++ f ++ ">"
  | .ifFn => "<function IF>"
  | .unmodeled => "<unmodelled float>"

/-- One iteration of the `recalc_all` loop (source lines 100-108): on
success store the raw value (the display is re-formatted afterwards), on
any failure store the no-value marker and the error text. -/
def recalcStep (dict : List Element) (c : Cache) (el : Element) : Element × Cache :=
  match evaluate_element (dict.length + 1) dict c [] el with
  | (c2, .ok v) => ({ el with raw_result := some v, result := pyStrV v }, c2)
  | (c2, .error m) => ({ el with raw_result := none, result := m }, c2)

def recalcAux (dict : List Element) : Cache → List Element → List Element
  | _, [] => []
  | c, e :: t => (recalcStep dict c e).1 :: recalcAux dict (recalcStep dict c e).2 t

/-- Source `recalc_all` (lines 98-108): one shared memoization cache for
the pass, a fresh in-progress stack per element, every element processed
regardless of failures. -/
def recalc_all (es : List Element) : List Element := recalcAux es [] es

def roundHE (x : ℚ) : ℤ :=
  let f := Int.floor x
  if x - f < 1 / 2 then f
  else if x - f > 1 / 2 then f + 1
  else if f % 2 = 0 then f else f + 1

def zerosStr (d : ℕ) : String := String.mk (List.replicate d '0')

def padLeft0 (s : String) (n : ℕ) : String :=
  if n ≤ s.length then s else String.mk (List.replicate (n - s.length) '0') ++ s

def fixedNN (q : ℚ) (d : ℕ) : String :=
  let r := (roundHE (q * (10 : ℚ) ^ d)).toNat
  if d = 0 then toString r
  else
    let s := padLeft0 (toString r) (d + 1)
    let k := s.length - d
    String.mk (s.toList.take k) ++ "." ++ String.mk (s.toList.drop k)

/-- Python `format(x, ".<d>f")` on the exact value. -/
def formatFixQ (q : ℚ) (d : ℕ) : String :=
  if q < 0 then "-" ++ fixedNN (-q) d else fixedNN q d

def upExp (q : ℚ) : ℕ → ℕ → ℕ
  | 0, e => e
  | fuel + 1, e => if q < (10 : ℚ) ^ (e + 1) then e else upExp q fuel (e + 1)

def downExp (q : ℚ) : ℕ → ℕ → ℕ
  | 0, k => k
  | fuel + 1, k => if 1 ≤ (10 : ℚ) ^ k * q then k else downExp q fuel (k + 1)

def sciExp (q : ℚ) : ℤ :=
  if 1 ≤ q then (upExp q (q.num.toNat + 1) 0 : ℤ)
  else -(downExp q (q.den + 1) 0 : ℤ)

def qpow10 (e : ℤ) : ℚ :=
  if 0 ≤ e then (10 : ℚ) ^ e.toNat else ((10 : ℚ) ^ (-e).toNat)⁻¹

def sciNN (q : ℚ) (d : ℕ) : String :=
  let e0 := sciExp q
  let r0 := (roundHE (q * qpow10 (-e0) * (10 : ℚ) ^ d)).toNat
  let re : ℕ × ℤ := if 10 ^ (d + 1) ≤ r0 then (r0 / 10, e0 + 1) else (r0, e0)
  let s := padLeft0 (toString re.1) (d + 1)
  let mant :=
    if d = 0 then String.mk (s.toList.take 1)
    else String.mk (s.toList.take 1) ++ "." ++ String.mk (s.toList.drop 1)
  mant ++ "e" ++ (if re.2 < 0 then "-" else "+") ++ padLeft0 (toString re.2.natAbs) 2

/-- Python `format(x, ".<d>e")` on the exact value. -/
def formatSciQ (q : ℚ) (d : ℕ) : String :=
  if q = 0 then (if d = 0 then "0" else "0." ++ zerosStr d) ++ "e+00"
  else if q < 0 then "-" ++ sciNN (-q) d
  else sciNN q d

def formatFix (v : Val) (d : ℕ) : String :=
  match v with
  | .num q => formatFixQ q d
  | .pinf => "inf"
  | .ninf => "-inf"
  | .nan => "nan"
  | .bool b => formatFixQ (if b then 1 else 0) d
  | .unmodeled => "<unmodelled float>"
  | _ => ""

def formatSci (v : Val) (d : ℕ) : String :=
  match v with
  | .num q => formatSciQ q d
  | .pinf => "inf"
  | .ninf => "-inf"
  | .nan => "nan"
  | .bool b => formatSciQ (if b then 1 else 0) d
  | .unmodeled => "<unmodelled float>"
  | _ => ""

/-- Python `isinstance(x, (int, float))`: true for numbers, the
non-finite floats, AND booleans, because `bool` is a subclass of `int`. -/
def isIntFloat : Val → Bool
  | .num _ => true
  | .pinf => true
  | .ninf => true
  | .nan => true
  | .bool _ => true
  | .unmodeled => true
  | _ => false

def isBoolV : Val → Bool
  | .bool _ => true
  | _ => false

/-- One element of `apply_current_format_to_all` (source lines 503-517).
The `isinstance(raw, (int, float))` test is checked FIRST and already
matches booleans, so the dedicated boolean branch below it is dead code,
kept here to mirror the source. -/
def applyFormatElem (fmt : String) (d : ℕ) (el : Element) : Element :=
  match el.raw_result with
  | some v =>
    if isIntFloat v then
      if fmt = "SCI" then { el with result := formatSci v d }
      else if fmt = "FIX" then { el with result := formatFix v d }
      else { el with result := pyStrV v }
    else if isBoolV v then { el with result := pyStrV v }
    else el
  | none => el

/-- `MainWindow.recalculate_all` (source line 412): the evaluation pass
followed by the formatting pass (`update_connections` only redraws
arrows).  `fmt` is the current format (`"NONE"`, `"SCI"` or `"FIX"`) and
`d` the decimals setting. -/
def recalculate_all (fmt : String) (d : ℕ) (es : List Element) : List Element :=
  (recalc_all es).map (applyFormatElem fmt d)

/-- The name/content view of an element: the only fields the evaluation
pass reads. -/
def elCore (e : Element) : String × String := (e.name, e.content)

lemma recalcStep_name (dict : List Element) (c : Cache) (el : Element) :
    (recalcStep dict c el).1.name = el.name := by
  rcases hE : evaluate_element (dict.length + 1) dict c [] el with ⟨c2, res⟩
  cases res <;> simp [recalcStep, hE]

lemma recalcStep_content (dict : List Element) (c : Cache) (el : Element) :
    (recalcStep dict c el).1.content = el.content := by
  rcases hE : evaluate_element (dict.length + 1) dict c [] el with ⟨c2, res⟩
  cases res <;> simp [recalcStep, hE]

lemma recalcStep_core (dict : List Element) (c : Cache) (el : Element) :
    elCore (recalcStep dict c el).1 = elCore el := by
  simp [elCore, recalcStep_name, recalcStep_content]

lemma applyFormatElem_name (fmt : String) (d : ℕ) (el : Element) :
    (applyFormatElem fmt d el).name = el.name := by
  obtain ⟨n, ct, r, s⟩ := el
  cases r with
  | none => rfl
  | some v =>
    simp only [applyFormatElem]
    split_ifs <;> rfl

lemma applyFormatElem_content (fmt : String) (d : ℕ) (el : Element) :
    (applyFormatElem fmt d el).content = el.content := by
  obtain ⟨n, ct, r, s⟩ := el
  cases r with
  | none => rfl
  | some v =>
    simp only [applyFormatElem]
    split_ifs <;> rfl

lemma applyFormatElem_raw (fmt : String) (d : ℕ) (el : Element) :
    (applyFormatElem fmt d el).raw_result = el.raw_result := by
  obtain ⟨n, ct, r, s⟩ := el
  cases r with
  | none => rfl
  | some v =>
    simp only [applyFormatElem]
    split_ifs <;> rfl

lemma applyFormatElem_core (fmt : String) (d : ℕ) (el : Element) :
    elCore (applyFormatElem fmt d el) = elCore el := by
  simp [elCore, applyFormatElem_name, applyFormatElem_content]

lemma applyFormatElem_of_none (fmt : String) (d : ℕ) (el : Element)
    (h : el.raw_result = none) : applyFormatElem fmt d el = el := by
  obtain ⟨n, ct, r, s⟩ := el
  cases r with
  | none => rfl
  | some v => simp at h

lemma recalcAux_length (dict : List Element) :
    ∀ (l : List Element) (c : Cache), (recalcAux dict c l).length = l.length := by
  intro l
  induction l with
  | nil => intro c; rfl
  | cons a t ih => intro c; simp [recalcAux, ih]

lemma recalcAux_get (dict : List Element) :
    ∀ (l : List Element) (c : Cache) (i : ℕ) (e : Element),
      l[i]? = some e → ∃ c2, (recalcAux dict c l)[i]? = some (recalcStep dict c2 e).1 := by
  intro l
  induction l with
  | nil => intro c i e h; simp at h
  | cons a t ih =>
    intro c i e h
    cases i with
    | zero =>
      simp at h
      subst h
      exact ⟨c, by simp [recalcAux]⟩
    | succ n =>
      simp at h
      obtain ⟨c2, h2⟩ := ih (recalcStep dict c a).2 n e h
      exact ⟨c2, by simpa [recalcAux] using h2⟩

lemma dictLookup_congr :
    ∀ {d1 d2 : List Element}, d1.map elCore = d2.map elCore →
      ∀ n, Option.map elCore (dictLookup n d1) = Option.map elCore (dictLookup n d2) := by
  intro d1
  induction d1 with
  | nil =>
    intro d2 hd n
    cases d2 with
    | nil => rfl
    | cons b t2 => simp at hd
  | cons a t1 ih =>
    intro d2 hd n
    cases d2 with
    | nil => simp at hd
    | cons b t2 =>
      simp only [List.map_cons, List.cons.injEq] at hd
      have hn : a.name = b.name := congrArg Prod.fst hd.1
      by_cases h : a.name = n
      · simp [dictLookup, h, hn ▸ h, hd.1]
      · have h2 : ¬(b.name = n) := by rw [← hn]; exact h
        simp only [dictLookup, if_neg h, if_neg h2]
        exact ih hd.2 n

lemma resolveDeps_congr {f1 f2 : Cache → Element → Cache × Except String Val}
    {d1 d2 : List Element} (hd : d1.map elCore = d2.map elCore)
    (hf : ∀ (c : Cache) (a b : Element), elCore a = elCore b → f1 c a = f2 c b) :
    ∀ (ds : List String) (c : Cache), resolveDeps f1 d1 c ds = resolveDeps f2 d2 c ds := by
  intro ds
  induction ds with
  | nil => intro c; rfl
  | cons d ds ih =>
    intro c
    simp only [resolveDeps]
    by_cases hres : d = "math" ∨ d = "IF"
    · simp only [if_pos hres]
      exact ih c
    · simp only [if_neg hres]
      have hl := dictLookup_congr hd d
      cases h1 : dictLookup d d1 with
      | none =>
        cases h2 : dictLookup d d2 with
        | none => rfl
        | some b => rw [h1, h2] at hl; simp at hl
      | some a =>
        cases h2 : dictLookup d d2 with
        | none => rw [h1, h2] at hl; simp at hl
        | some b =>
          rw [h1, h2] at hl
          simp only [Option.map_some'] at hl
          have hcore := Option.some.inj hl
          simp only [hf c a b hcore]
          rcases hfb : f2 c b with ⟨c2, res⟩
          cases res with
          | error m => simp [hfb]
          | ok v => simp [hfb, ih c2]

lemma evaluate_element_congr (fuel : ℕ) :
    ∀ {d1 d2 : List Element}, d1.map elCore = d2.map elCore →
      ∀ (c : Cache) (s : List String) (e1 e2 : Element), elCore e1 = elCore e2 →
        evaluate_element fuel d1 c s e1 = evaluate_element fuel d2 c s e2 := by
  induction fuel with
  | zero => intro d1 d2 hd c s e1 e2 hcore; rfl
  | succ fuel ih =>
    intro d1 d2 hd c s e1 e2 hcore
    obtain ⟨n1, ct1, r1, s1⟩ := e1
    obtain ⟨n2, ct2, r2, s2⟩ := e2
    simp only [elCore, Prod.mk.injEq] at hcore
    obtain ⟨hn, hc⟩ := hcore
    subst hn
    subst hc
    have hres : resolveDeps (fun c2 e => evaluate_element fuel d1 c2 (n1 :: s) e) d1 c
          (get_dependencies ct1) =
        resolveDeps (fun c2 e => evaluate_element fuel d2 c2 (n1 :: s) e) d2 c
          (get_dependencies ct1) :=
      resolveDeps_congr hd (fun c2 a b hab => ih hd c2 (n1 :: s) a b hab) _ c
    simp only [evaluate_element, hres]

lemma recalcStep_congr {d1 d2 : List Element} (hd : d1.map elCore = d2.map elCore)
    (c : Cache) (e1 e2 : Element) (he : elCore e1 = elCore e2) :
    recalcStep d1 c e1 = recalcStep d2 c e2 := by
  have hlen : d1.length = d2.length := by
    have := congrArg List.length hd
    simpa using this
  obtain ⟨n1, ct1, r1, s1⟩ := e1
  obtain ⟨n2, ct2, r2, s2⟩ := e2
  simp only [elCore, Prod.mk.injEq] at he
  obtain ⟨hn, hc⟩ := he
  subst hn
  subst hc
  simp only [recalcStep, hlen]
  rw [evaluate_element_congr (d2.length + 1) hd c [] ⟨n1, ct1, r1, s1⟩ ⟨n1, ct1, r2, s2⟩ rfl]

lemma recalcAux_congr {d1 d2 : List Element} (hd : d1.map elCore = d2.map elCore) :
    ∀ {l1 l2 : List Element}, l1.map elCore = l2.map elCore →
      ∀ c, recalcAux d1 c l1 = recalcAux d2 c l2 := by
  intro l1
  induction l1 with
  | nil =>
    intro l2 hl c
    cases l2 with
    | nil => rfl
    | cons b t2 => simp at hl
  | cons a t1 ih =>
    intro l2 hl c
    cases l2 with
    | nil => simp at hl
    | cons b t2 =>
      simp only [List.map_cons, List.cons.injEq] at hl
      have hstep : recalcStep d1 c a = recalcStep d2 c b := recalcStep_congr hd c a b hl.1
      simp only [recalcAux, hstep]
      rw [ih hl.2 (recalcStep d2 c b).2]

lemma recalcAux_core (dict : List Element) :
    ∀ (l : List Element) (c : Cache), (recalcAux dict c l).map elCore = l.map elCore := by
  intro l
  induction l with
  | nil => intro c; rfl
  | cons a t ih => intro c; simp [recalcAux, recalcStep_core, ih]

lemma recalculate_all_core (fmt : String) (d : ℕ) (es : List Element) :
    (recalculate_all fmt d es).map elCore = es.map elCore := by
  simp only [recalculate_all, recalc_all, List.map_map]
  have h : (elCore ∘ applyFormatElem fmt d) = elCore := funext (applyFormatElem_core fmt d)
  rw [h, recalcAux_core]

/-- C1 counterexample: the claim says every content whose parsed
expression uses a construct outside the allow-listed grammar — a
comparison, for instance — fails with a disallowed-expression error.  In
the code the comparison `1 < 2` evaluates successfully to the boolean
`True` (and the whole pass renders it), so no such error is raised. -/
theorem c1_counterexample :
    evalContent "1 < 2" [] = .ok (.bool true) ∧
    recalculate_all "NONE" 3 [⟨"E1", "1 < 2", none, ""⟩] =
      [⟨"E1", "1 < 2", some (.bool true), "True"⟩] := by
  exact ⟨rfl, rfl⟩

/-- C1 amended: the sandbox consists only of the emptied `__builtins__`
plus the `math`/`IF` globals; constructs outside the allow-listed grammar
that need no builtins — comparisons, boolean keyword constants, string
literals — evaluate to values instead of failing, and no
disallowed-expression error exists in the code. -/
theorem c1_no_allowlist :
    evalContent "1 < 2" [] = .ok (.bool true) ∧
    evalContent "True" [] = .ok (.bool true) ∧
    evalContent "\"ab\" + \"cd\"" [] = .ok (.str "abcd") ∧
    evalContent "1 == 1" [] = .ok (.bool true) := by
  exact ⟨rfl, rfl, rfl, rfl⟩

/-- C2 counterexample: `get_dependencies` itself does not exclude the
reserved identifiers — for `math.sqrt(16)` it returns exactly
`{"math"}`, so the returned set does contain `math`, contrary to the
claim.  The exclusion happens in the callers. -/
theorem c2_counterexample :
    get_dependencies "math.sqrt(16)" = ["math"] ∧
    "math" ∈ get_dependencies "math.sqrt(16)" := by
  exact ⟨rfl, by decide⟩

/-- C2 amended: `get_dependencies` returns every identifier including the
reserved `math`/`IF` (`{"math"}` for `math.sqrt(16)`, `{"IF"}` for
`IF(1, 10, 20)`), and it is the evaluation loop that skips the two
reserved names, so they are never resolved as element references and both
formulas evaluate successfully. -/
theorem c2_reserved_skipped_by_caller :
    get_dependencies "math.sqrt(16)" = ["math"] ∧
    get_dependencies "IF(1, 10, 20)" = ["IF"] ∧
    (recalculate_all "NONE" 3 [⟨"E1", "math.sqrt(16)", none, ""⟩]).map Element.raw_result =
      [some (.num 4)] ∧
    (recalculate_all "NONE" 3 [⟨"E1", "IF(1, 10, 20)", none, ""⟩]).map Element.raw_result =
      [some (.num 10)] ∧
    (recalculate_all "NONE" 3 [⟨"E1", "IF(0, 10, 20)", none, ""⟩]).map Element.raw_result =
      [some (.num 20)] := by
  exact ⟨rfl, rfl, rfl, rfl, rfl⟩

/-- C3 code bug: in Python `bool` is a subclass of `int`, so a boolean
raw result matches the `isinstance(raw_result, (int, float))` branch
checked first and receives scientific/fixed formatting
(`format(True, ".3e") = "1.000e+00"`); the dedicated boolean branch of
`apply_current_format_to_all` is dead code.  Only the plain mode renders
`True`/`False`.  This theorem evaluates the formatter of the code at the
failing input. -/
theorem c3_bool_formatting_divergence :
    (applyFormatElem "SCI" 3 ⟨"E1", "1 < 2", some (.bool true), "True"⟩).result = "1.000e+00" ∧
    (applyFormatElem "FIX" 2 ⟨"E1", "1 < 2", some (.bool true), "True"⟩).result = "1.00" ∧
    (applyFormatElem "NONE" 3 ⟨"E1", "1 < 2", some (.bool true), "True"⟩).result = "True" ∧
    (recalculate_all "SCI" 3 [⟨"E1", "1 < 2", none, ""⟩]).map Element.result = ["1.000e+00"] := by
  exact ⟨rfl, rfl, rfl, rfl⟩

/-- C4 counterexample: the claim says the caret binds as a
right-associative power operator.  In the code `XorToPow` only replaces
the operator inside the tree `ast.parse` built for `BitXor`, which is
left-associative and binds below `+`: `2 ^ 3 ^ 2` evaluates to `64.0`
(right-associative power would give `512.0`, as `2 ** 3 ** 2` does) and
`1 + 2 ^ 3` evaluates to `27.0` (a power-strength caret would give
`9.0`). -/
theorem c4_counterexample :
    evalContent "2 ^ 3 ^ 2" [] = .ok (.num 64) ∧
    evalContent "1 + 2 ^ 3" [] = .ok (.num 27) ∧
    evalContent "2 ** 3 ** 2" [] = .ok (.num 512) ∧
    evalContent "1 + 2 ** 3" [] = .ok (.num 9) := by
  exact ⟨rfl, rfl, rfl, rfl⟩

/-- C4 amended: the caret always means exponentiation — the transformer
turns every `BitXor` node into `Pow`, never leaving an XOR — and
`2 ^ 3 = 8.0`; but `^` keeps BitXor's grammar position: left-associative
and binding below `+`/`-`. -/
theorem c4_caret_is_exponentiation :
    (∀ a b : Expr, xorToPow (.binop .bitxor a b) = .binop .pow (xorToPow a) (xorToPow b)) ∧
    evalContent "2 ^ 3" [] = .ok (.num 8) ∧
    evalContent "2 ^ 3 ^ 2" [] = .ok (.num 64) ∧
    evalContent "1 + 2 ^ 3" [] = .ok (.num 27) := by
  exact ⟨fun a b => rfl, rfl, rfl, rfl⟩

/-- C5: an explicit division by zero is an evaluation error, not an IEEE
infinity.  First conjunct: at the expression level, dividing any value
that evaluates to a finite number by any value that evaluates to zero
yields the `division by zero` error.  Second conjunct: `evaluate_element`
on an element with content `1/0` (not already cached or in progress)
fails with the wrapped evaluation-error message, for every registry and
cache.  Last conjuncts: after the full pass the element holds the
no-value marker and displays the division-by-zero message. -/
theorem c5_division_by_zero :
    (∀ (env : Env) (e1 e2 : Expr) (v w : Val) (q : ℚ),
      evalExpr env e1 = .ok v → toANum? v = some (.finite q) →
      evalExpr env e2 = .ok w → toANum? w = some (.finite 0) →
      evalExpr env (.binop .div e1 e2) = .error "division by zero") ∧
    (∀ (fuel : ℕ) (dict : List Element) (c : Cache) (stack : List String) (el : Element),
      lookupC el.name c = none → el.name ∉ stack → el.content = "1/0" →
      evaluate_element (fuel + 1) dict c stack el =
        (c, .error "Error evaluating formula: division by zero")) ∧
    (recalculate_all "NONE" 3 [⟨"E1", "1/0", none, ""⟩]).map Element.raw_result = [none] ∧
    (recalculate_all "NONE" 3 [⟨"E1", "1/0", none, ""⟩]).map Element.result =
      ["Error evaluating formula: division by zero"] := by
  refine ⟨?_, ?_, rfl, rfl⟩
  · intro env e1 e2 v w q h1 hv h2 hw
    have hstep : evalExpr env (Expr.binop BOp.div e1 e2) = applyB BOp.div v w := by
      simp only [evalExpr, h1, h2]
      rfl
    rw [hstep]
    simp [applyB, hv, hw, divA, Except.map]
  · intro fuel dict c stack el h1 h2 h3
    simp only [evaluate_element, h1, h3, if_neg h2]
    rfl

/-- C5 witness: the division lemma applied at `1/0` itself, and the
element-level statement at a concrete one-element registry with empty
cache and stack. -/
theorem c5_division_by_zero_witness :
    evalExpr [] (.binop .div (.num 1) (.num 0)) = .error "division by zero" ∧
    evaluate_element 1 [] [] [] ⟨"E1", "1/0", none, ""⟩ =
      ([], .error "Error evaluating formula: division by zero") := by
  constructor
  · exact c5_division_by_zero.1 [] (.num 1) (.num 0) (.num 1) (.num 0) 1 rfl rfl rfl rfl
  · exact c5_division_by_zero.2.1 0 [] [] [] ⟨"E1", "1/0", none, ""⟩ rfl (by simp) rfl

/-- C6 counterexample: in the registry `{E1: "E2", E2: "E3", E3: "E2"}`
only `E2` and `E3` form a cycle — no element references `E1`, so `E1` is
in no cycle (its dependency list is `["E2"]` and, as the first conjunct
computes, `E1` is referenced by nobody).  Yet `E1` is affected: it ends
with the no-value marker and a circular-dependency message (about `E2`),
contradicting the claim that no element outside the cycle is affected. -/
theorem c6_counterexample :
    ([⟨"E1", "E2", none, ""⟩, ⟨"E2", "E3", none, ""⟩,
        (⟨"E3", "E2", none, ""⟩ : Element)].map fun e => get_dependencies e.content) =
      [["E2"], ["E3"], ["E2"]] ∧
    (recalculate_all "NONE" 3 [⟨"E1", "E2", none, ""⟩, ⟨"E2", "E3", none, ""⟩,
        ⟨"E3", "E2", none, ""⟩]).map Element.result =
      ["Circular dependency detected for element: E2",
       "Circular dependency detected for element: E2",
       "Circular dependency detected for element: E3"] ∧
    (recalculate_all "NONE" 3 [⟨"E1", "E2", none, ""⟩, ⟨"E2", "E3", none, ""⟩,
        ⟨"E3", "E2", none, ""⟩]).map Element.raw_result = [none, none, none] := by
  exact ⟨rfl, rfl, rfl⟩

/-- C6 amended: every element of a dependency cycle receives a
circular-dependency error message naming its own name when the cycle is
entered from that element (Scenario B and a self-reference, a length-1
cycle, reported identically); an element outside every cycle that
transitively depends on one is also affected, receiving a
circular-dependency message naming a cycle element; unrelated elements
are unaffected. -/
theorem c6_cycle_reporting :
    (recalculate_all "NONE" 3 [⟨"E1", "E2", none, ""⟩, ⟨"E2", "E1", none, ""⟩]).map
        Element.result =
      ["Circular dependency detected for element: E1",
       "Circular dependency detected for element: E2"] ∧
    (recalculate_all "NONE" 3 [⟨"E1", "E1 + 1", none, ""⟩]).map Element.result =
      ["Circular dependency detected for element: E1"] ∧
    (recalculate_all "NONE" 3 [⟨"E1", "E2", none, ""⟩, ⟨"E2", "E3", none, ""⟩,
        ⟨"E3", "E2", none, ""⟩, ⟨"E4", "5", none, ""⟩]).map Element.result =
      ["Circular dependency detected for element: E2",
       "Circular dependency detected for element: E2",
       "Circular dependency detected for element: E3", "5.0"] ∧
    (recalculate_all "NONE" 3 [⟨"E1", "E2", none, ""⟩, ⟨"E2", "E3", none, ""⟩,
        ⟨"E3", "E2", none, ""⟩, ⟨"E4", "5", none, ""⟩]).map Element.raw_result =
      [none, none, none, some (.num 5)] := by
  exact ⟨rfl, rfl, rfl, rfl⟩

/-- C7: every failure during an element's resolution is recovered locally
to that element.  The pass never aborts (the output has one element per
input element, names and contents preserved), and for every element
either its evaluation succeeded and the raw result holds the value, or it
failed and the raw result is the no-value marker while the display result
is exactly the error's message (the formatting pass leaves elements with
the no-value marker untouched). -/
theorem c7_local_recovery (fmt : String) (d : ℕ) (es : List Element) :
    (recalculate_all fmt d es).length = es.length ∧
    ∀ (i : ℕ) (e : Element), es[i]? = some e →
      ∃ (c : Cache) (e2 : Element),
        (recalculate_all fmt d es)[i]? = some e2 ∧
        e2.name = e.name ∧ e2.content = e.content ∧
        ((∃ v, (evaluate_element (es.length + 1) es c [] e).2 = .ok v ∧
            e2.raw_result = some v) ∨
         (∃ m, (evaluate_element (es.length + 1) es c [] e).2 = .error m ∧
            e2.raw_result = none ∧ e2.result = m)) := by
  constructor
  · simp [recalculate_all, recalc_all, recalcAux_length]
  · intro i e h
    obtain ⟨c2, h2⟩ := recalcAux_get es es [] i e h
    refine ⟨c2, applyFormatElem fmt d (recalcStep es c2 e).1, ?_, ?_, ?_, ?_⟩
    · simp [recalculate_all, recalc_all, List.getElem?_map, h2]
    · simp [applyFormatElem_name, recalcStep_name]
    · simp [applyFormatElem_content, recalcStep_content]
    · rcases hE : evaluate_element (es.length + 1) es c2 [] e with ⟨cc, res⟩
      cases res with
      | ok v =>
        left
        refine ⟨v, rfl, ?_⟩
        rw [applyFormatElem_raw]
        simp [recalcStep, hE]
      | error m =>
        right
        refine ⟨m, rfl, ?_, ?_⟩
        · rw [applyFormatElem_raw]
          simp [recalcStep, hE]
        · have hnone : (recalcStep es c2 e).1.raw_result = none := by
            simp [recalcStep, hE]
          rw [applyFormatElem_of_none fmt d _ hnone]
          simp [recalcStep, hE]

/-- C7 witness: the local-recovery statement instantiated at a concrete
two-element registry in which the first element fails (division by zero)
and the second succeeds. -/
theorem c7_local_recovery_witness :
    ((recalculate_all "NONE" 3 [⟨"E1", "1/0", none, ""⟩, ⟨"E2", "5", none, ""⟩]).length = 2) ∧
    (∃ (c : Cache) (e2 : Element),
      (recalculate_all "NONE" 3 [⟨"E1", "1/0", none, ""⟩, ⟨"E2", "5", none, ""⟩])[0]? =
        some e2 ∧
      e2.name = (⟨"E1", "1/0", none, ""⟩ : Element).name ∧
      e2.content = (⟨"E1", "1/0", none, ""⟩ : Element).content ∧
      ((∃ v, (evaluate_element (2 + 1) [⟨"E1", "1/0", none, ""⟩, ⟨"E2", "5", none, ""⟩] c []
            ⟨"E1", "1/0", none, ""⟩).2 = .ok v ∧ e2.raw_result = some v) ∨
       (∃ m, (evaluate_element (2 + 1) [⟨"E1", "1/0", none, ""⟩, ⟨"E2", "5", none, ""⟩] c []
            ⟨"E1", "1/0", none, ""⟩).2 = .error m ∧
          e2.raw_result = none ∧ e2.result = m))) := by
  have h := c7_local_recovery "NONE" 3 [⟨"E1", "1/0", none, ""⟩, ⟨"E2", "5", none, ""⟩]
  exact ⟨h.1, h.2 0 ⟨"E1", "1/0", none, ""⟩ rfl⟩

/-- C8 counterexample: in the registry `{E1: "E2 + E3", E2: "E2"}` the
element `E1` references the name `E3`, absent from the registry, but its
display result is the circular-dependency message raised while resolving
its other dependency `E2` — not an unknown-variable error naming `E3`. -/
theorem c8_counterexample :
    get_dependencies "E2 + E3" = ["E2", "E3"] ∧
    dictLookup "E3" [⟨"E1", "E2 + E3", none, ""⟩, ⟨"E2", "E2", none, ""⟩] = none ∧
    (recalculate_all "NONE" 3 [⟨"E1", "E2 + E3", none, ""⟩, ⟨"E2", "E2", none, ""⟩]).map
        Element.result =
      ["Circular dependency detected for element: E2",
       "Circular dependency detected for element: E2"] := by
  exact ⟨rfl, rfl, rfl⟩

/-- C8 amended: an element referencing a name absent from the registry
receives the unknown-variable error naming that dependency, provided no
earlier dependency's resolution fails first.  First conjunct: whenever
the (sole) extracted dependency of an element is a non-reserved name with
no registry entry, `evaluate_element` fails with exactly
`Unknown variable: <name>`, for every registry and cache.  Remaining
conjuncts: in a registry where the element's first dependency resolves
successfully and the second is absent, the element displays the
unknown-variable error naming the absent name, with the no-value marker,
and the other element is unaffected. -/
theorem c8_unknown_variable :
    (∀ (fuel : ℕ) (dict : List Element) (c : Cache) (stack : List String) (el : Element)
        (dep : String),
      lookupC el.name c = none → el.name ∉ stack → pyFloat? el.content = none →
      get_dependencies el.content = [dep] → ¬(dep = "math" ∨ dep = "IF") →
      dictLookup dep dict = none →
      evaluate_element (fuel + 1) dict c stack el =
        (c, .error ("Unknown variable: " ++ dep))) ∧
    (recalculate_all "NONE" 3 [⟨"E1", "E2 + E9", none, ""⟩, ⟨"E2", "5", none, ""⟩]).map
        Element.result = ["Unknown variable: E9", "5.0"] ∧
    (recalculate_all "NONE" 3 [⟨"E1", "E2 + E9", none, ""⟩, ⟨"E2", "5", none, ""⟩]).map
        Element.raw_result = [none, some (.num 5)] := by
  refine ⟨?_, rfl, rfl⟩
  intro fuel dict c stack el dep h1 h2 h3 h4 h5 h6
  simp only [evaluate_element, h1, h3, h4, if_neg h2, resolveDeps, if_neg h5, h6]

/-- C8 witness: the unknown-variable statement applied at an element
whose content is the bare absent name `E9`, in the empty registry. -/
theorem c8_unknown_variable_witness :
    evaluate_element 1 [] [] [] ⟨"E1", "E9", none, ""⟩ =
      ([], .error ("Unknown variable: " ++ "E9")) := by
  exact c8_unknown_variable.1 0 [] [] [] ⟨"E1", "E9", none, ""⟩ "E9" rfl (by simp) rfl rfl
    (by simp) rfl

/-- C9: recalculation is idempotent — in fact unconditionally, for every
registry, cyclic or not, because a pass reads only the names and contents
of the elements (which it preserves) and overwrites both result fields;
running the pass (evaluation followed by formatting) a second time with
no content changes reproduces exactly the same elements, so in particular
every acyclic registry satisfies the claim. -/
theorem c9_idempotent (fmt : String) (d : ℕ) (es : List Element) :
    recalculate_all fmt d (recalculate_all fmt d es) = recalculate_all fmt d es := by
  have hcore : (recalculate_all fmt d es).map elCore = es.map elCore :=
    recalculate_all_core fmt d es
  calc recalculate_all fmt d (recalculate_all fmt d es)
      = (recalcAux (recalculate_all fmt d es) [] (recalculate_all fmt d es)).map
          (applyFormatElem fmt d) := rfl
    _ = (recalcAux es [] es).map (applyFormatElem fmt d) := by
        rw [recalcAux_congr hcore hcore []]
    _ = recalculate_all fmt d es := rfl

/-- C10: the numeric-literal fast path of `evaluate_element` accepts
everything `float(content)` accepts — including `inf`, `nan`, `Infinity`
and whitespace-padded numbers — and returns the parsed value at once for
EVERY registry and environment (the statement quantifies over an
arbitrary registry, so dependency extraction and the formula path can
play no role), producing no error; a non-finite raw result therefore
reaches the formatter, which renders `inf` even in scientific mode. -/
theorem c10_float_fast_path :
    (∀ (fuel : ℕ) (dict : List Element) (c : Cache) (stack : List String) (el : Element)
        (v : Val),
      pyFloat? el.content = some v → lookupC el.name c = none → el.name ∉ stack →
      evaluate_element (fuel + 1) dict c stack el = ((el.name, v) :: c, .ok v)) ∧
    pyFloat? "inf" = some .pinf ∧
    pyFloat? "nan" = some .nan ∧
    pyFloat? "Infinity" = some .pinf ∧
    pyFloat? " 5 " = some (.num 5) ∧
    pyFloat? "1e3" = some (.num 1000) ∧
    (recalculate_all "SCI" 3 [⟨"E1", "inf", none, ""⟩]).map Element.raw_result =
      [some .pinf] ∧
    (recalculate_all "SCI" 3 [⟨"E1", "inf", none, ""⟩]).map Element.result = ["inf"] := by
  refine ⟨?_, rfl, rfl, rfl, rfl, rfl, rfl, rfl⟩
  intro fuel dict c stack el v h1 h2 h3
  simp only [evaluate_element, h1, h2, if_neg h3]

/-- C10 witness: the fast-path statement applied to the literal `inf` in
an empty registry with empty cache and stack. -/
theorem c10_float_fast_path_witness :
    evaluate_element 1 [] [] [] ⟨"E1", "inf", none, ""⟩ = ([("E1", .pinf)], .ok .pinf) := by
  exact c10_float_fast_path.1 0 [] [] [] ⟨"E1", "inf", none, ""⟩ .pinf rfl rfl (by simp)

end VC
